import Mathlib

/-!
Verification of the file-backed asynchronous job lifecycle of the
`simple-api` repository (the `/jobs` variants: `src/unnamed/part_001`,
`part_003`, `part_004`, `part_005`, `part_007`, and the python-runner
variant `src/index.js`).

The embedding translates the JavaScript source:
* a job record (`job.json`) becomes the structure `Job`;
* `writeJob(id, patch)` becomes `writeJob` (shallow merge over an
  `Option Job`, synthesizing the default record when absent);
* the `POST /jobs` handler of `part_003` becomes `postJobs`;
* the background pipeline of `part_004` becomes `pipelineTrace`,
  parameterized by an `Oracle` giving each external stage's outcome;
* the `GET /jobs/:id` handlers become `getJob3` / `getJob4`, with the
  response's `files` object represented as an association list so that
  presence and absence of keys is expressible;
* `readJsonWithRetry` of `src/index.js` becomes `readJsonWithRetry`,
  parameterized by the per-attempt file contents and by `JSON.parse`.

JavaScript numbers used here (`progress`, `Date.now()`) are small
non-negative integers, modelled as `Nat`.
-/

namespace SimpleApi

/-- Job status strings used by the `/jobs` variants:
`queued | downloading | analyzing | tts | done | failed`. -/
inductive Status
  | queued
  | downloading
  | analyzing
  | tts
  | done
  | failed
deriving DecidableEq

/-- A status is terminal when it is `done` or `failed`. -/
def Status.isTerminal : Status → Bool
  | .done => true
  | .failed => true
  | _ => false

/-- The `files` object stored inside a job record.  The five keys are the
only ones any `writeJob` call site in the repository ever stores. -/
structure Files where
  videoPath : Option String := none
  linesPath : Option String := none
  editableLinesPath : Option String := none
  ttsPath : Option String := none
  outputPath : Option String := none
deriving DecidableEq

/-- A job record as persisted in `job.json`.  Top-level keys written by
the code: `id`, `status`, `progress`, `createdAt`, `updatedAt`, `files`,
`error`, `src`, `voiceId`. -/
structure Job where
  id : String
  status : Status
  progress : Nat
  createdAt : Nat
  updatedAt : Option Nat
  files : Files
  error : Option String := none
  src : Option String := none
  voiceId : Option String := none
deriving DecidableEq

/-- A patch passed to `writeJob`: each field is `some` when the patch
object names that key.  These are the only keys any patch in the
repository names. -/
structure Patch where
  status : Option Status := none
  progress : Option Nat := none
  files : Option Files := none
  error : Option String := none
  src : Option String := none
  voiceId : Option String := none
deriving DecidableEq

/-- The record synthesized by `writeJob` when no `job.json` exists:
`{ id, status: 'queued', progress: 0, createdAt: Date.now(), files: {} }`
(`part_003` line 40 and the identical lines in `part_001`, `part_004`,
`part_005`). -/
def defaultJob (id : String) (now : Nat) : Job :=
  { id := id
    status := .queued
    progress := 0
    createdAt := now
    updatedAt := none
    files := {}
    error := none
    src := none
    voiceId := none }

/-- The JavaScript spread `{ ...cur, ...patch }`: keys named by the patch
overwrite, all other top-level keys keep the current value. -/
def mergePatch (c : Job) (p : Patch) : Job :=
  { id := c.id
    status := p.status.getD c.status
    progress := p.progress.getD c.progress
    createdAt := c.createdAt
    updatedAt := c.updatedAt
    files := p.files.getD c.files
    error := p.error <|> c.error
    src := p.src <|> c.src
    voiceId := p.voiceId <|> c.voiceId }

/-- `writeJob(id, patch)` from `part_003` lines 36-45 (identical in
`part_001`, `part_004`, `part_005`): read the current record or
synthesize the default, shallow-merge the patch, set `updatedAt`, write
back.  `cur` is the current content of `job.json` for this id, `now`
models `Date.now()`. -/
def writeJob (id : String) (cur : Option Job) (p : Patch) (now : Nat) : Job :=
  let c := cur.getD (defaultJob id now)
  { mergePatch c p with updatedAt := some now }

/-- `readJob(id)` from `part_003` lines 46-50: the record, or `none` when
`job.json` does not exist. -/
def readJob (cur : Option Job) : Option Job := cur

/-- Right-biased composition of two patches, the spread
`{ ...p, ...q }`: keys named by `q` win. -/
def pcomp (p q : Patch) : Patch :=
  { status := q.status <|> p.status
    progress := q.progress <|> p.progress
    files := q.files <|> p.files
    error := q.error <|> p.error
    src := q.src <|> p.src
    voiceId := q.voiceId <|> p.voiceId }

/-- Two patches name disjoint sets of top-level keys. -/
def DisjointPatches (p q : Patch) : Prop :=
  (p.status = none ∨ q.status = none) ∧
  (p.progress = none ∨ q.progress = none) ∧
  (p.files = none ∨ q.files = none) ∧
  (p.error = none ∨ q.error = none) ∧
  (p.src = none ∨ q.src = none) ∧
  (p.voiceId = none ∨ q.voiceId = none)

/-- Concrete record used by witnesses. -/
def jW : Job :=
  { id := "a"
    status := .downloading
    progress := 5
    createdAt := 0
    updatedAt := some 0
    files := {}
    error := none
    src := some "u"
    voiceId := none }

/-- Concrete patch used by witnesses. -/
def pW : Patch := { progress := some 40 }

/-- Patch used by the C9 counterexample. -/
def pEx : Patch := { status := some .downloading }

/-- The job store: the contents of `job.json` per job id, newest binding
first (each job owns its own file; ids index them). -/
abbrev Store := List (String × Job)

/-- Store lookup for one job id. -/
def findJob (st : Store) (id : String) : Option Job := st.lookup id

/-- Store update for one job id (the file for `id` now holds `j`). -/
def putJob (st : Store) (id : String) (j : Job) : Store := (id, j) :: st

/-- `Date.now().toString(36)`. -/
def natToBase36 (n : Nat) : String := (Nat.toDigits 36 n).asString

/-- Job id generation of the `/jobs` handlers:
`sha256(youtubeUrl).slice(0, 12) + '-' + Date.now().toString(36)`.
`hash` models the external `crypto` sha256 hex digest. -/
def newJobId (hash : String → String) (url : String) (now : Nat) : String :=
  (hash url).take 12 ++ "-" ++ natToBase36 now

/-- The creation patch of `part_003` `POST /jobs` line 132:
`{ status: 'downloading', progress: 5, src: youtubeUrl }`. -/
def creationPatch3 (url : String) : Patch :=
  { status := some .downloading, progress := some 5, src := some url }

/-- The creation patch of `part_004` `POST /jobs` line 162:
`{ status: 'downloading', progress: 5, voiceId }`. -/
def creationPatch4 (voiceId : String) : Patch :=
  { status := some .downloading, progress := some 5, voiceId := some voiceId }

/-- Synchronous response of `POST /jobs`. -/
inductive PostResp
  | bad (code : Nat) (error : String)
  | ok (jobId : String) (status : Status)
deriving DecidableEq

/-- `POST /jobs` of `part_003` lines 125-134 (the synchronous part, before
the background task): validate `youtubeUrl` (missing, empty, or failing
`ytdl.validateURL` → HTTP 400 and no store write), else create the job
record with the creation patch and answer `{ jobId, status }`.
`validate` models the external `ytdl.validateURL`. -/
def postJobs (hash : String → String) (validate : String → Bool)
    (youtubeUrl : Option String) (st : Store) (now : Nat) : Store × PostResp :=
  match youtubeUrl with
  | none => (st, .bad 400 "invalid youtubeUrl")
  | some url =>
    if url = "" then (st, .bad 400 "invalid youtubeUrl")
    else if validate url then
      (putJob st (newJobId hash url now)
        (writeJob (newJobId hash url now) (findJob st (newJobId hash url now))
          (creationPatch3 url) now),
       .ok (newJobId hash url now) .downloading)
    else (st, .bad 400 "invalid youtubeUrl")

/-- A parsed caption line, as stored in `lines.json` and passed through
unchanged by `GET /jobs/:id` as `editableLines`.  The numeric timing
fields (JS floats) play no role in any claim and are left out of the
pass-through content. -/
structure Line where
  lid : String
  text : String
deriving DecidableEq

/-- A value inside the `files` object of a `GET /jobs/:id` response:
a plain string (paths and URLs), the nested `tts` object
`{ stitchedMp3Url }`, or the inlined `editableLines` array. -/
inductive FVal
  | str (v : String)
  | ttsObj (stitchedMp3Url : String)
  | linesArr (ls : List Line)
deriving DecidableEq

/-- The body of a successful `GET /jobs/:id` response: the stored record
with its `files` object (represented as key-value pairs so presence and
absence of keys is expressible). -/
structure JobOut where
  id : String
  status : Status
  progress : Nat
  createdAt : Nat
  updatedAt : Option Nat
  error : Option String
  src : Option String
  voiceId : Option String
  files : List (String × FVal)
deriving DecidableEq

/-- Response of `GET /jobs/:id`. -/
inductive GetResp
  | notFound (code : Nat) (error : String)
  | ok (body : JobOut)
deriving DecidableEq

/-- `path.relative(DATA_DIR, abs)` for paths stored by this code, which
all live under `DATA_DIR`: drop the `DATA_DIR + '/'` prefix. -/
def stripDir (dataDir abs : String) : String :=
  if (dataDir ++ "/").data.isPrefixOf abs.data then
    abs.drop (dataDir.length + 1)
  else abs

/-- `toUrl` of the `/jobs` variants:
`PUBLIC_BASE_URL + '/files/' + path.relative(DATA_DIR, abs)`. -/
def toUrl (baseUrl dataDir abs : String) : String :=
  baseUrl ++ "/files/" ++ stripDir dataDir abs

/-- The stored `files` object as response key-value pairs, the spread
`{ ...files }`. -/
def pathEntries (f : Files) : List (String × FVal) :=
  (match f.videoPath with
    | some v => [("videoPath", FVal.str v)]
    | none => []) ++
  (match f.linesPath with
    | some v => [("linesPath", FVal.str v)]
    | none => []) ++
  (match f.editableLinesPath with
    | some v => [("editableLinesPath", FVal.str v)]
    | none => []) ++
  (match f.ttsPath with
    | some v => [("ttsPath", FVal.str v)]
    | none => []) ++
  (match f.outputPath with
    | some v => [("outputPath", FVal.str v)]
    | none => [])

/-- The response `files` object built by `GET /jobs/:id` of `part_003`
lines 177-180: copy of the stored files, plus `videoUrl` when
`videoPath` is present and `downloadUrl` when `outputPath` is present. -/
def getJobFiles3 (baseUrl dataDir : String) (f : Files) : List (String × FVal) :=
  pathEntries f ++
  (match f.videoPath with
    | some v => [("videoUrl", FVal.str (toUrl baseUrl dataDir v))]
    | none => []) ++
  (match f.outputPath with
    | some v => [("downloadUrl", FVal.str (toUrl baseUrl dataDir v))]
    | none => [])

/-- The response `files` object built by `GET /jobs/:id` of `part_004`
lines 199-206 (same shape in `part_005` and `part_007`): copy of the
stored files, plus `videoUrl`, the nested `tts: { stitchedMp3Url }`,
the inlined `editableLines` content, and `downloadUrl`.  `readLines`
models `JSON.parse(await fs.readFile(editableLinesPath))`. -/
def getJobFiles4 (baseUrl dataDir : String) (readLines : String → List Line)
    (f : Files) : List (String × FVal) :=
  pathEntries f ++
  (match f.videoPath with
    | some v => [("videoUrl", FVal.str (toUrl baseUrl dataDir v))]
    | none => []) ++
  (match f.ttsPath with
    | some v => [("tts", FVal.ttsObj (toUrl baseUrl dataDir v))]
    | none => []) ++
  (match f.editableLinesPath with
    | some p => [("editableLines", FVal.linesArr (readLines p))]
    | none => []) ++
  (match f.outputPath with
    | some v => [("downloadUrl", FVal.str (toUrl baseUrl dataDir v))]
    | none => [])

/-- The copied top-level record of a `GET /jobs/:id` response body,
the spread `{ ...j }` with its `files` replaced. -/
def jobOutOf (j : Job) (files : List (String × FVal)) : JobOut :=
  { id := j.id
    status := j.status
    progress := j.progress
    createdAt := j.createdAt
    updatedAt := j.updatedAt
    error := j.error
    src := j.src
    voiceId := j.voiceId
    files := files }

/-- `GET /jobs/:id` of `part_003` lines 174-182: 404 when unknown, else
the stored record with the derived URL fields. -/
def getJob3 (baseUrl dataDir : String) (st : Store) (id : String) : GetResp :=
  match findJob st id with
  | none => .notFound 404 "not found"
  | some j => .ok (jobOutOf j (getJobFiles3 baseUrl dataDir j.files))

/-- `GET /jobs/:id` of `part_004` lines 196-208: 404 when unknown, else
the stored record with the derived fields. -/
def getJob4 (baseUrl dataDir : String) (readLines : String → List Line)
    (st : Store) (id : String) : GetResp :=
  match findJob st id with
  | none => .notFound 404 "not found"
  | some j => .ok (jobOutOf j (getJobFiles4 baseUrl dataDir readLines j.files))

/-- Stored files of a finished `part_004` job, used by the C6
counterexample. -/
def fEx : Files :=
  { videoPath := some "/data/jobs/a/video.mp4"
    linesPath := some "/data/jobs/a/lines.json"
    editableLinesPath := some "/data/jobs/a/lines.json"
    ttsPath := some "/data/jobs/a/tts.mp3"
    outputPath := none }

/-- A finished job record used by the C6 counterexample. -/
def jEx : Job :=
  { id := "a"
    status := .done
    progress := 100
    createdAt := 0
    updatedAt := some 1
    files := fEx
    error := none
    src := none
    voiceId := some "ko/female_basic" }

/-- The `GET /jobs/:id` handler as a store operation.  The handler body
(`part_004` lines 196-208, `part_003` lines 174-182, `part_001` lines
139-147) contains no `writeJob` or `fs.writeFile` call: the derived
fields are added to the spread copies `{ ...j }` and `{ ...files }`
only, so the store component is returned unchanged. -/
def getJobOp4 (baseUrl dataDir : String) (readLines : String → List Line)
    (st : Store) (id : String) : Store × GetResp :=
  (st, getJob4 baseUrl dataDir readLines st id)

/-- `n` successive polls of `GET /jobs/:id`, each running on the store
left by the previous one; returns the final store and the responses. -/
def pollJob4 (baseUrl dataDir : String) (readLines : String → List Line)
    (id : String) : Nat → Store → Store × List GetResp
  | 0, st => (st, [])
  | n + 1, st =>
    (((pollJob4 baseUrl dataDir readLines id n
        (getJobOp4 baseUrl dataDir readLines st id).1)).1,
     (getJobOp4 baseUrl dataDir readLines st id).2 ::
       (pollJob4 baseUrl dataDir readLines id n
         (getJobOp4 baseUrl dataDir readLines st id).1).2)

/-- `jobDir(id) = path.join(DATA_DIR, 'jobs', id)`. -/
def jobDir (dataDir id : String) : String := dataDir ++ "/jobs/" ++ id

/-- `path.join(dir, 'video.mp4')`. -/
def mp4Path (dataDir id : String) : String := jobDir dataDir id ++ "/video.mp4"

/-- `path.join(dir, 'lines.json')`. -/
def linesJsonPath (dataDir id : String) : String :=
  jobDir dataDir id ++ "/lines.json"

/-- `path.join(dir, 'tts.mp3')`. -/
def ttsMp3Path (dataDir id : String) : String := jobDir dataDir id ++ "/tts.mp3"

/-- `path.join(dir, 'out.mp4')`. -/
def outMp4Path (dataDir id : String) : String := jobDir dataDir id ++ "/out.mp4"

/-- Outcome of one external call made by the background pipeline: it
returns normally or throws with a message. -/
inductive Outcome
  | ok
  | fail (msg : String)
deriving DecidableEq

/-- Outcomes of the four external calls of the `part_004` `POST /jobs`
background task, in execution order: `downloadProgressiveMp4`,
`fetchAutoTranscript` (with the `lines.json` write), `azureVoices`, and
`azureSynthesizeSSML` (with the `tts.mp3` write). -/
structure Oracle where
  download : Outcome
  transcript : Outcome
  voices : Outcome
  synth : Outcome
deriving DecidableEq

/-- `String(e?.message || e)`: the thrown message when non-empty;
stringifying an `Error` whose message is empty yields `'Error'`. -/
def errString (msg : String) : String := if msg = "" then "Error" else msg

/-- The catch-all patch of the background task (`part_004` line 191,
`part_007` line 203): `{ status: 'failed', progress: 100, error: String(e?.message || e) }`. -/
def failPatch (msg : String) : Patch :=
  { status := some .failed
    progress := some 100
    error := some (errString msg) }

/-- `part_004` line 175:
`{ status: 'analyzing', progress: 40, files: { videoPath: mp4 } }`. -/
def analyzingPatch (dataDir id : String) : Patch :=
  { status := some .analyzing
    progress := some 40
    files := some { videoPath := some (mp4Path dataDir id) } }

/-- `part_004` line 181: `{ status: 'tts', progress: 60, files: { videoPath,
linesPath, editableLinesPath } }`. -/
def ttsStagePatch (dataDir id : String) : Patch :=
  { status := some .tts
    progress := some 60
    files := some
      { videoPath := some (mp4Path dataDir id)
        linesPath := some (linesJsonPath dataDir id)
        editableLinesPath := some (linesJsonPath dataDir id) } }

/-- `part_004` line 190: `{ status: 'done', progress: 100, files: { videoPath,
editableLinesPath, ttsPath } }`. -/
def donePatch (dataDir id : String) : Patch :=
  { status := some .done
    progress := some 100
    files := some
      { videoPath := some (mp4Path dataDir id)
        editableLinesPath := some (linesJsonPath dataDir id)
        ttsPath := some (ttsMp3Path dataDir id) } }

/-- The sequence of `writeJob` patches applied by the `part_004`
background task (lines 166-192) for a given oracle: each stage runs in
order; the first throwing stage jumps to the catch, which applies
`failPatch` and ends the task — nothing retries and no later stage
runs. -/
def pipelineTrace (dataDir id : String) (o : Oracle) : List Patch :=
  match o.download with
  | .fail m => [failPatch m]
  | .ok =>
    analyzingPatch dataDir id ::
    match o.transcript with
    | .fail m => [failPatch m]
    | .ok =>
      ttsStagePatch dataDir id ::
      match o.voices with
      | .fail m => [failPatch m]
      | .ok =>
        match o.synth with
        | .fail m => [failPatch m]
        | .ok => [donePatch dataDir id]

/-- The message of the first failing stage, if any. -/
def firstFail (o : Oracle) : Option String :=
  match o.download with
  | .fail m => some m
  | .ok =>
    match o.transcript with
    | .fail m => some m
    | .ok =>
      match o.voices with
      | .fail m => some m
      | .ok =>
        match o.synth with
        | .fail m => some m
        | .ok => none

/-- The patch of `PATCH /jobs/:id/captions/:lineId` (`part_004` line 228):
`{ files: { ...j.files, editableLinesPath: p, ttsPath: ttsMp3 } }` —
it names no `status` key. -/
def capPatch (f : Files) (linesP ttsP : String) : Patch :=
  { files := some { f with editableLinesPath := some linesP, ttsPath := some ttsP } }

/-- The patch of `PUT /jobs/:id/voice` (`part_004` line 246):
`{ voiceId, files: { ...j.files, editableLinesPath: p, ttsPath: ttsMp3 } }` —
it names no `status` key. -/
def voicePatch (v : String) (f : Files) (linesP ttsP : String) : Patch :=
  { voiceId := some v
    files := some { f with editableLinesPath := some linesP, ttsPath := some ttsP } }

/-- The patch of `POST /jobs/:id/render` (`part_004` line 260):
`{ files: { ...j.files, outputPath: out } }` — it names no `status` key. -/
def renderPatch (f : Files) (outP : String) : Patch :=
  { files := some { f with outputPath := some outP } }

/-- One `writeJob` application on the stored record of a single job id;
the `Nat` component is the `Date.now()` timestamp of the call. -/
def step (id : String) (s : Option Job) (pt : Patch × Nat) : Option Job :=
  some (writeJob id s pt.1 pt.2)

/-- The stored record after a sequence of `writeJob` calls. -/
def applyTrace (id : String) (s : Option Job) (tr : List (Patch × Nat)) :
    Option Job :=
  tr.foldl (step id) s

/-- All intermediate stored records of a sequence of `writeJob` calls,
starting from the absent record. -/
def jobStates (id : String) (tr : List (Patch × Nat)) : List (Option Job) :=
  tr.scanl (step id) none

/-- `Interleaving xs ys zs`: `zs` is an order-preserving interleaving of
`xs` and `ys` — the per-job serialization of the background pipeline's
writes with any other handlers' writes for the same job. -/
inductive Interleaving {α : Type} : List α → List α → List α → Prop
  | nil : Interleaving [] [] []
  | left {x : α} {xs ys zs : List α} :
      Interleaving xs ys zs → Interleaving (x :: xs) ys (x :: zs)
  | right {y : α} {xs ys zs : List α} :
      Interleaving xs ys zs → Interleaving xs (y :: ys) (y :: zs)

/-- A patch whose `status` key holds a terminal value. -/
def terminalPatch (p : Patch) : Bool :=
  match p.status with
  | some s => s.isTerminal
  | none => false

/-- Every patch of the list except possibly the last is non-terminal. -/
def SafeList : List Patch → Prop
  | p :: q :: r => terminalPatch p = false ∧ SafeList (q :: r)
  | _ => True

/-- Terminal-status persistence between two observed store states. -/
def Persist (a b : Option Job) : Prop :=
  ∀ j, a = some j → j.status.isTerminal = true →
    ∃ j2, b = some j2 ∧ j2.status = j.status

/-- If the stored record is already terminal, no pipeline patches
remain. -/
def Inv (s : Option Job) (pl : List (Patch × Nat)) : Prop :=
  ∀ j, s = some j → j.status.isTerminal = true → pl = []

/-- The status held by the stored record, with the default record's
`queued` when no record exists. -/
def statusOf (s : Option Job) : Status :=
  match s with
  | some j => j.status
  | none => .queued

/-- Oracle of the C1 witness: the download stage throws. -/
def oW : Oracle := ⟨.fail "boom", .ok, .ok, .ok⟩

/-- Pipeline writes of the C1 witness, with timestamps. -/
def plW : List (Patch × Nat) := [(creationPatch4 "v", 10), (failPatch "boom", 11)]

/-- A status-free caption-handler write for the C1 witness. -/
def hsW : List (Patch × Nat) := [(capPatch {} "l" "t", 12)]

/-- The serialization used by the C1 witness: the caption write lands
after the job failed. -/
def trW : List (Patch × Nat) :=
  [(creationPatch4 "v", 10), (failPatch "boom", 11), (capPatch {} "l" "t", 12)]

/-- Stored record after the creation write of the C1 witness. -/
def j1W : Job := writeJob "i" none (creationPatch4 "v") 10

/-- Stored record after the failure write of the C1 witness. -/
def j2W : Job := writeJob "i" (some j1W) (failPatch "boom") 11

/-- Stored record after the post-failure caption write of the C1
witness. -/
def j3W : Job := writeJob "i" (some j2W) (capPatch {} "l" "t") 12

/-- Timestamps attached to a patch sequence: the k-th write of the
sequence happens at time `ts k`. -/
def timed : List Patch → (Nat → Nat) → Nat → List (Patch × Nat)
  | [], _, _ => []
  | p :: ps, ts, k => (p, ts k) :: timed ps ts (k + 1)

/-- Content of a job's `job.json` file at one instant: absent, truncated
to empty — the intermediate state `fs.writeFile` leaves between opening
the path with truncation and writing the serialized record — or a
complete serialized record. -/
inductive JContent
  | absent
  | empty
  | full (j : Job)
deriving DecidableEq

/-- Result of running `readJob` against one file state: a missing file
gives the not-found signal (`fs.pathExists` is false); `JSON.parse` of
an empty file throws; a complete file parses back to the record. -/
inductive ReadOutcome
  | notFound
  | record (j : Job)
  | parseError
deriving DecidableEq

/-- `readJob` evaluated against the instantaneous file content. -/
def readJobAt : JContent → ReadOutcome
  | .absent => .notFound
  | .empty => .parseError
  | .full j => .record j

/-- The successive `job.json` contents during
`await fs.writeFile(p, JSON.stringify(next))` (`part_003` line 43) over
a file currently holding `prev`: the code writes the file in place —
truncate, then write — not write-then-rename. -/
def writeFileStates (prev : JContent) (j : Job) : List JContent :=
  [prev, .empty, .full j]

/-- The blank check of `readJsonWithRetry`: JavaScript
`!(txt && txt.trim().length > 0)` — true for the empty string and for
whitespace-only text. -/
def isBlank (s : String) : Bool := s.data.all (fun c => c.isWhitespace)

/-- One read attempt of `readJsonWithRetry` at attempt index `i`:
`fs.readFile` yields `readAt i` (`none` models the read throwing, e.g.
file missing); the attempt resolves only when the text is non-blank and
`JSON.parse` succeeds — a thrown `JSON.parse` is swallowed by the same
`catch {}` and the attempt falls through to the retry check.  `parse`
models `JSON.parse`. -/
def attemptVal {α : Type} (readAt : Nat → Option String)
    (parse : String → Option α) (i : Nat) : Option α :=
  match readAt i with
  | none => none
  | some txt => if isBlank txt then none else parse txt

/-- The rejection message of `readJsonWithRetry`. -/
def retryMsg : String := "result.json missing or empty after retries"

/-- The retry loop of `readJsonWithRetry`, with `rem` the remaining
attempts after the current one at index `i`; `rem = 0` mirrors the guard
`if (++i >= tries) return reject(new Error(retryMsg))` firing after the
current attempt. -/
def rjwrGo {α : Type} (readAt : Nat → Option String)
    (parse : String → Option α) (i : Nat) : Nat → Except String α
  | 0 =>
    match attemptVal readAt parse i with
    | some v => .ok v
    | none => .error retryMsg
  | rem + 1 =>
    match attemptVal readAt parse i with
    | some v => .ok v
    | none => rjwrGo readAt parse (i + 1) rem

/-- `readJsonWithRetry(p, tries, delayMs)` of `src/index.js` lines 44-57
(the loop variant at lines 523-534 computes the same value): up to
`tries` read attempts separated by a fixed delay — the delay only
spaces the attempts in time and does not affect the returned value —
resolving at the first attempt with parseable non-blank text and
rejecting with `retryMsg` otherwise.  The JS guard `++i >= tries` makes
one attempt even for `tries = 0`, hence `tries - 1` (truncated
subtraction) remaining attempts after the first. -/
def readJsonWithRetry {α : Type} (readAt : Nat → Option String)
    (parse : String → Option α) (tries : Nat) : Except String α :=
  rjwrGo readAt parse 0 (tries - 1)

theorem getD_getD_eq_orElse_getD {α : Type} (b a : Option α) (c : α) :
    b.getD (a.getD c) = (b <|> a).getD c := by
  cases b <;> cases a <;> rfl

theorem orElse_orElse_assoc {α : Type} (c a b : Option α) :
    (b <|> (a <|> c)) = ((b <|> a) <|> c) := by
  cases b <;> cases a <;> rfl

theorem mergePatch_mergePatch (c : Job) (p q : Patch) :
    mergePatch (mergePatch c p) q = mergePatch c (pcomp p q) := by
  simp [mergePatch, pcomp, getD_getD_eq_orElse_getD, orElse_orElse_assoc]

theorem orElse_comm_of_none {α : Type} (a b : Option α)
    (h : a = none ∨ b = none) : (a <|> b) = (b <|> a) := by
  cases a <;> cases b <;> simp_all

theorem pcomp_comm_of_disjoint (p q : Patch) (h : DisjointPatches p q) :
    pcomp p q = pcomp q p := by
  obtain ⟨h1, h2, h3, h4, h5, h6⟩ := h
  simp only [pcomp, Patch.mk.injEq]
  exact ⟨orElse_comm_of_none q.status p.status h1.symm,
    orElse_comm_of_none q.progress p.progress h2.symm,
    orElse_comm_of_none q.files p.files h3.symm,
    orElse_comm_of_none q.error p.error h4.symm,
    orElse_comm_of_none q.src p.src h5.symm,
    orElse_comm_of_none q.voiceId p.voiceId h6.symm⟩

theorem getD_getD_self {α : Type} (o : Option α) (x : α) :
    o.getD (o.getD x) = o.getD x := by
  cases o <;> rfl

theorem orElse_orElse_self {α : Type} (o x : Option α) :
    (o <|> (o <|> x)) = (o <|> x) := by
  cases o <;> rfl

theorem setUpdatedAt_self (j : Job) (t : Nat) (h : j.updatedAt = some t) :
    { j with updatedAt := some t } = j := by
  cases j
  simp_all

/-- Claim C3: `writeJob(id, patch)` reads the current record — or, when no
record exists, synthesizes the default record with `status 'queued'`,
`progress 0`, empty `files` and the given `id` (the code additionally
stamps `createdAt`) — merges the patch shallowly so that keys named by
the patch overwrite and every other top-level key persists unchanged,
sets `updatedAt`, and returns the merged record that is written back. -/
theorem C3_writeJob_shallow_merge (id : String) (cur : Option Job) (p : Patch) (now : Nat) :
    (writeJob id cur p now).updatedAt = some now ∧
    (∀ j, cur = some j →
      (writeJob id cur p now).id = j.id ∧
      (writeJob id cur p now).createdAt = j.createdAt ∧
      (p.status = none → (writeJob id cur p now).status = j.status) ∧
      (∀ v, p.status = some v → (writeJob id cur p now).status = v) ∧
      (p.progress = none → (writeJob id cur p now).progress = j.progress) ∧
      (∀ v, p.progress = some v → (writeJob id cur p now).progress = v) ∧
      (p.files = none → (writeJob id cur p now).files = j.files) ∧
      (∀ v, p.files = some v → (writeJob id cur p now).files = v) ∧
      (p.error = none → (writeJob id cur p now).error = j.error) ∧
      (∀ v, p.error = some v → (writeJob id cur p now).error = some v) ∧
      (p.src = none → (writeJob id cur p now).src = j.src) ∧
      (∀ v, p.src = some v → (writeJob id cur p now).src = some v) ∧
      (p.voiceId = none → (writeJob id cur p now).voiceId = j.voiceId) ∧
      (∀ v, p.voiceId = some v → (writeJob id cur p now).voiceId = some v)) ∧
    (cur = none →
      writeJob id cur p now =
        { mergePatch (defaultJob id now) p with updatedAt := some now } ∧
      (defaultJob id now).id = id ∧
      (defaultJob id now).status = .queued ∧
      (defaultJob id now).progress = 0 ∧
      (defaultJob id now).files = {}) := by
  refine ⟨rfl, ?_, ?_⟩
  · rintro j rfl
    refine ⟨rfl, rfl, ?_, ?_, ?_, ?_, ?_, ?_, ?_, ?_, ?_, ?_, ?_, ?_⟩
    all_goals
      first
        | (intro h; simp [writeJob, mergePatch, h])
        | (intro v h; simp [writeJob, mergePatch, h])
  · rintro rfl
    exact ⟨rfl, rfl, rfl, rfl, rfl⟩

/-- Witness for C3 at a concrete record and patch. -/
theorem C3_writeJob_shallow_merge_witness :
    (writeJob "a" (some jW) pW 7).progress = 40 ∧
    (writeJob "a" (some jW) pW 7).status = jW.status := by
  have h := (C3_writeJob_shallow_merge "a" (some jW) pW 7).2.1 jW rfl
  exact ⟨h.2.2.2.2.2.1 40 rfl, h.2.2.1 rfl⟩

/-- Claim C9 counterexample: calling `writeJob` twice in succession with
the same fields does not produce the same record as calling it once —
the second call changes `updatedAt` (here from `some 0` to `some 1`). -/
theorem C9_counterexample :
    writeJob "a" (some (writeJob "a" none pEx 0)) pEx 1 ≠
      writeJob "a" none pEx 0 := by
  decide

/-- Claim C9 (amended): a second `writeJob` with the same fields changes
nothing but `updatedAt` — with equal timestamps the record is literally
identical — and the shallow merge is associative (composing patches
right-biased), with patch composition commutative for disjoint field
sets. -/
theorem C9_patch_idempotent_mod_updatedAt :
    (∀ id cur p t1 t2,
      writeJob id (some (writeJob id cur p t1)) p t2 =
        { writeJob id cur p t1 with updatedAt := some t2 }) ∧
    (∀ id cur p t,
      writeJob id (some (writeJob id cur p t)) p t = writeJob id cur p t) ∧
    (∀ c p q, mergePatch (mergePatch c p) q = mergePatch c (pcomp p q)) ∧
    (∀ c p q, DisjointPatches p q →
      mergePatch (mergePatch c p) q = mergePatch (mergePatch c q) p) := by
  have key : ∀ id cur p t1 t2,
      writeJob id (some (writeJob id cur p t1)) p t2 =
        { writeJob id cur p t1 with updatedAt := some t2 } := by
    intro id cur p t1 t2
    simp [writeJob, mergePatch, getD_getD_self, orElse_orElse_self]
  refine ⟨key, ?_, ?_, ?_⟩
  · intro id cur p t
    rw [key]
    exact setUpdatedAt_self _ _ rfl
  · exact mergePatch_mergePatch
  · intro c p q h
    rw [mergePatch_mergePatch, mergePatch_mergePatch, pcomp_comm_of_disjoint p q h]

/-- Witness for the amended C9 at a concrete record and patches,
discharging the disjointness hypothesis of the commutation conjunct. -/
theorem C9_patch_idempotent_mod_updatedAt_witness :
    writeJob "a" (some (writeJob "a" (some jW) pW 3)) pW 3 =
      writeJob "a" (some jW) pW 3 ∧
    mergePatch (mergePatch jW pW) pEx = mergePatch (mergePatch jW pEx) pW :=
  ⟨C9_patch_idempotent_mod_updatedAt.2.1 "a" (some jW) pW 3,
    C9_patch_idempotent_mod_updatedAt.2.2.2 jW pW pEx
      ⟨Or.inl rfl, Or.inr rfl, Or.inl rfl, Or.inl rfl, Or.inl rfl, Or.inl rfl⟩⟩

/-- Claim C8: a `POST /jobs` whose body is missing `youtubeUrl` or whose
`youtubeUrl` fails URL validation answers HTTP 400 synchronously and
leaves the job store unchanged. -/
theorem C8_invalid_url_rejected_without_job (hash : String → String)
    (validate : String → Bool) (body : Option String) (st : Store) (now : Nat)
    (h : body = none ∨ body = some "" ∨
      ∃ u, body = some u ∧ validate u = false) :
    postJobs hash validate body st now = (st, .bad 400 "invalid youtubeUrl") := by
  rcases h with rfl | rfl | ⟨u, rfl, hu⟩
  · rfl
  · simp [postJobs]
  · by_cases he : u = "" <;> simp [postJobs, he, hu]

/-- Witness for C8 at a concrete request with a failing validator. -/
theorem C8_invalid_url_rejected_without_job_witness :
    postJobs (fun _ => "h") (fun _ => false) (some "u") [("x", jW)] 0 =
      ([("x", jW)], .bad 400 "invalid youtubeUrl") :=
  C8_invalid_url_rejected_without_job (fun _ => "h") (fun _ => false)
    (some "u") [("x", jW)] 0 (Or.inr (Or.inr ⟨"u", rfl, rfl⟩))

/-- Claim C2 counterexample: a job created via `POST /jobs` is stored with
status `downloading`, not `queued` — polling it before any stage
completes returns `downloading`. -/
theorem C2_counterexample :
    (findJob (postJobs (fun _ => "h") (fun _ => true) (some "u") [] 0).1
        "h-0").map Job.status = some .downloading ∧
    Status.downloading ≠ Status.queued := by
  decide

/-- Claim C2 (amended): `POST /jobs` synchronously stores the job with
initial status `downloading` (progress 5, `src` set, empty `files`),
answers `{ jobId, status: 'downloading' }`, and a `GET /jobs/:id` issued
before any stage completes returns the record with status `downloading`
and an empty `files` mapping. -/
theorem C2_created_job_downloading_empty_files (hash : String → String)
    (validate : String → Bool) (url : String) (st : Store) (now : Nat)
    (baseUrl dataDir : String)
    (hv : validate url = true) (hne : url ≠ "")
    (hfresh : findJob st (newJobId hash url now) = none) :
    ∃ j,
      (postJobs hash validate (some url) st now).2 =
        .ok (newJobId hash url now) .downloading ∧
      findJob (postJobs hash validate (some url) st now).1
        (newJobId hash url now) = some j ∧
      j.status = .downloading ∧ j.progress = 5 ∧ j.files = {} ∧
      j.src = some url ∧ j.error = none ∧
      getJob3 baseUrl dataDir (postJobs hash validate (some url) st now).1
          (newJobId hash url now) =
        .ok (jobOutOf j []) := by
  refine ⟨writeJob (newJobId hash url now) none (creationPatch3 url) now, ?_⟩
  have hpost : postJobs hash validate (some url) st now =
      (putJob st (newJobId hash url now)
        (writeJob (newJobId hash url now) none (creationPatch3 url) now),
       .ok (newJobId hash url now) .downloading) := by
    simp [postJobs, hne, hv, hfresh]
  rw [hpost]
  refine ⟨rfl, ?_, rfl, rfl, rfl, rfl, rfl, ?_⟩
  · simp [findJob, putJob, List.lookup]
  · simp [getJob3, findJob, putJob, List.lookup]
    rfl

/-- Witness for the amended C2 at a concrete request. -/
theorem C2_created_job_downloading_empty_files_witness :
    ∃ j,
      (postJobs (fun _ => "h") (fun _ => true) (some "u") [] 0).2 =
        .ok (newJobId (fun _ => "h") "u" 0) .downloading ∧
      findJob (postJobs (fun _ => "h") (fun _ => true) (some "u") [] 0).1
        (newJobId (fun _ => "h") "u" 0) = some j ∧
      j.status = .downloading ∧ j.progress = 5 ∧ j.files = {} ∧
      j.src = some "u" ∧ j.error = none ∧
      getJob3 "http://localhost:3000" "/data"
          (postJobs (fun _ => "h") (fun _ => true) (some "u") [] 0).1
          (newJobId (fun _ => "h") "u" 0) =
        .ok (jobOutOf j []) :=
  C2_created_job_downloading_empty_files (fun _ => "h") (fun _ => true) "u" [] 0
    "http://localhost:3000" "/data" rfl (by decide) rfl

/-- Claim C6 counterexample: for a known job whose `files.ttsPath` and
`files.linesPath` are set, the `GET /jobs/:id` response exposes no
`ttsUrl` and no `linesUrl` key — `ttsPath` is instead exposed as the
nested `tts.stitchedMp3Url`, so not every `files.*Path` field gets a
corresponding `*Url` field. -/
theorem C6_counterexample :
    ∃ body,
      getJob4 "http://localhost:3000" "/data" (fun _ => []) [("a", jEx)] "a" =
        .ok body ∧
      jEx.files.ttsPath.isSome = true ∧
      jEx.files.linesPath.isSome = true ∧
      body.files.lookup "ttsUrl" = none ∧
      body.files.lookup "linesUrl" = none ∧
      body.files.lookup "tts" =
        some (FVal.ttsObj "http://localhost:3000/files/jobs/a/tts.mp3") := by
  refine ⟨_, rfl, by decide, by decide, by decide, by decide, by decide⟩

theorem lookup_videoUrl4 (baseUrl dataDir : String)
    (readLines : String → List Line) (f : Files) (v : String)
    (h : f.videoPath = some v) :
    (getJobFiles4 baseUrl dataDir readLines f).lookup "videoUrl" =
      some (FVal.str (toUrl baseUrl dataDir v)) := by
  obtain ⟨v1, v2, v3, v4, v5⟩ := f
  cases v1 <;> cases v2 <;> cases v3 <;> cases v4 <;> cases v5 <;>
    simp_all [getJobFiles4, pathEntries, List.lookup]

theorem lookup_downloadUrl4 (baseUrl dataDir : String)
    (readLines : String → List Line) (f : Files) (v : String)
    (h : f.outputPath = some v) :
    (getJobFiles4 baseUrl dataDir readLines f).lookup "downloadUrl" =
      some (FVal.str (toUrl baseUrl dataDir v)) := by
  obtain ⟨v1, v2, v3, v4, v5⟩ := f
  cases v1 <;> cases v2 <;> cases v3 <;> cases v4 <;> cases v5 <;>
    simp_all [getJobFiles4, pathEntries, List.lookup]

theorem lookup_tts4 (baseUrl dataDir : String)
    (readLines : String → List Line) (f : Files) (v : String)
    (h : f.ttsPath = some v) :
    (getJobFiles4 baseUrl dataDir readLines f).lookup "tts" =
      some (FVal.ttsObj (toUrl baseUrl dataDir v)) := by
  obtain ⟨v1, v2, v3, v4, v5⟩ := f
  cases v1 <;> cases v2 <;> cases v3 <;> cases v4 <;> cases v5 <;>
    simp_all [getJobFiles4, pathEntries, List.lookup]

theorem lookup_editableLines4 (baseUrl dataDir : String)
    (readLines : String → List Line) (f : Files) (p : String)
    (h : f.editableLinesPath = some p) :
    (getJobFiles4 baseUrl dataDir readLines f).lookup "editableLines" =
      some (FVal.linesArr (readLines p)) := by
  obtain ⟨v1, v2, v3, v4, v5⟩ := f
  cases v1 <;> cases v2 <;> cases v3 <;> cases v4 <;> cases v5 <;>
    simp_all [getJobFiles4, pathEntries, List.lookup]

/-- Claim C6 (amended): `GET /jobs/:id` returns 404 for every unknown job
id; for a known id it returns the full stored record, where
`files.videoPath` is exposed as `files.videoUrl` and `files.outputPath`
as `files.downloadUrl` — absolute URLs of the form
`PUBLIC_BASE_URL + '/files/' + relative path` — while `files.ttsPath` is
exposed as the nested `files.tts.stitchedMp3Url`, `files.editableLinesPath`
as the inlined `files.editableLines` content, and `files.linesPath` gets
no URL field. -/
theorem C6_get_job_urls (baseUrl dataDir : String)
    (readLines : String → List Line) (st : Store) (id : String) :
    (findJob st id = none →
      getJob4 baseUrl dataDir readLines st id = .notFound 404 "not found") ∧
    (∀ j, findJob st id = some j →
      getJob4 baseUrl dataDir readLines st id =
        .ok (jobOutOf j (getJobFiles4 baseUrl dataDir readLines j.files)) ∧
      (∀ v, j.files.videoPath = some v →
        (getJobFiles4 baseUrl dataDir readLines j.files).lookup "videoUrl" =
          some (FVal.str (baseUrl ++ "/files/" ++ stripDir dataDir v))) ∧
      (∀ v, j.files.outputPath = some v →
        (getJobFiles4 baseUrl dataDir readLines j.files).lookup "downloadUrl" =
          some (FVal.str (baseUrl ++ "/files/" ++ stripDir dataDir v))) ∧
      (∀ v, j.files.ttsPath = some v →
        (getJobFiles4 baseUrl dataDir readLines j.files).lookup "tts" =
          some (FVal.ttsObj (baseUrl ++ "/files/" ++ stripDir dataDir v))) ∧
      (∀ p, j.files.editableLinesPath = some p →
        (getJobFiles4 baseUrl dataDir readLines j.files).lookup "editableLines" =
          some (FVal.linesArr (readLines p)))) := by
  constructor
  · intro h
    simp [getJob4, h]
  · intro j h
    refine ⟨by simp [getJob4, h], ?_, ?_, ?_, ?_⟩
    · intro v hv
      exact lookup_videoUrl4 baseUrl dataDir readLines j.files v hv
    · intro v hv
      exact lookup_downloadUrl4 baseUrl dataDir readLines j.files v hv
    · intro v hv
      exact lookup_tts4 baseUrl dataDir readLines j.files v hv
    · intro p hp
      exact lookup_editableLines4 baseUrl dataDir readLines j.files p hp

/-- Witness for the amended C6 at a concrete store and job. -/
theorem C6_get_job_urls_witness :
    getJob4 "http://localhost:3000" "/data" (fun _ => []) [("a", jEx)] "a" =
      .ok (jobOutOf jEx
        (getJobFiles4 "http://localhost:3000" "/data" (fun _ => []) jEx.files)) ∧
    (getJobFiles4 "http://localhost:3000" "/data" (fun _ => []) jEx.files).lookup
        "videoUrl" =
      some (FVal.str ("http://localhost:3000" ++ "/files/" ++
        stripDir "/data" "/data/jobs/a/video.mp4")) := by
  have h := (C6_get_job_urls "http://localhost:3000" "/data" (fun _ => [])
    [("a", jEx)] "a").2 jEx rfl
  exact ⟨h.1, h.2.1 "/data/jobs/a/video.mp4" rfl⟩

/-- Claim C10: `GET /jobs/:id` never modifies the persisted job record:
any number of status polls leaves the stored state unchanged, and
repeated polls of an unchanging job all return the same response. -/
theorem C10_get_job_frame (baseUrl dataDir : String)
    (readLines : String → List Line) (st : Store) (id : String) (n : Nat) :
    (getJobOp4 baseUrl dataDir readLines st id).1 = st ∧
    (pollJob4 baseUrl dataDir readLines id n st).1 = st ∧
    ∀ r ∈ (pollJob4 baseUrl dataDir readLines id n st).2,
      r = getJob4 baseUrl dataDir readLines st id := by
  refine ⟨rfl, ?_, ?_⟩
  · induction n with
    | zero => rfl
    | succ n ih => simpa [pollJob4, getJobOp4] using ih
  · induction n with
    | zero => intro r hr; cases hr
    | succ n ih =>
      intro r hr
      simp only [pollJob4] at hr
      rcases List.mem_cons.mp hr with h | h
      · exact h
      · exact ih r h

/-- Witness for C10 at a concrete store, discharging the membership
hypothesis. -/
theorem C10_get_job_frame_witness :
    getJob4 "http://localhost:3000" "/data" (fun _ => []) [("a", jEx)] "a" =
      getJob4 "http://localhost:3000" "/data" (fun _ => []) [("a", jEx)] "a" :=
  (C10_get_job_frame "http://localhost:3000" "/data" (fun _ => [])
      [("a", jEx)] "a" 2).2.2
    (getJob4 "http://localhost:3000" "/data" (fun _ => []) [("a", jEx)] "a")
    (by simp [pollJob4, getJobOp4])

theorem step_status (id : String) (s : Option Job) (pt : Patch × Nat) :
    (writeJob id s pt.1 pt.2).status = pt.1.status.getD (statusOf s) := by
  cases s <;> cases hp : pt.1.status <;>
    simp [writeJob, mergePatch, defaultJob, statusOf, hp]

theorem safeList_tail (p : Patch) (r : List Patch) :
    SafeList (p :: r) → SafeList r := by
  cases r with
  | nil => intro _; trivial
  | cons q r => intro h; exact h.2

theorem safeList_head (p q : Patch) (r : List Patch) :
    SafeList (p :: q :: r) → terminalPatch p = false := by
  intro h; exact h.1

theorem scanl_cons_head {α β : Type} (f : β → α → β) (b : β) (l : List α) :
    ∃ t, List.scanl f b l = b :: t := by
  cases l <;> exact ⟨_, rfl⟩

theorem persist_trans : Transitive Persist := by
  intro a b c hab hbc j hj ht
  obtain ⟨j2, hb, hst⟩ := hab j hj ht
  obtain ⟨j3, hc, hst2⟩ := hbc j2 hb (by rw [hst]; exact ht)
  exact ⟨j3, hc, hst2.trans hst⟩

theorem chain_persist (id : String) :
    ∀ {pl hs tr : List (Patch × Nat)}, Interleaving pl hs tr →
      SafeList (pl.map Prod.fst) →
      (∀ pt ∈ hs, (Prod.fst pt).status = none) →
      ∀ s : Option Job, Inv s pl →
        List.Chain' Persist (List.scanl (step id) s tr) := by
  intro pl hs tr h
  induction h with
  | nil =>
    intro _ _ s _
    simp
  | @left x xs ys zs hint ih =>
    intro hsafe hns s hinv
    obtain ⟨t, ht⟩ := scanl_cons_head (step id) (step id s x) zs
    rw [List.scanl_cons, List.singleton_append, ht]
    apply List.Chain'.cons
    · intro j hj hterm
      exact absurd (hinv j hj hterm) (List.cons_ne_nil x xs)
    · rw [← ht]
      apply ih (safeList_tail _ _ hsafe) hns (step id s x)
      intro j2 hj2 hterm2
      cases hxs : xs with
      | nil => rfl
      | cons q r =>
        exfalso
        have hsafe2 : terminalPatch x.1 = false := by
          rw [hxs] at hsafe
          exact safeList_head _ _ _ hsafe
        have hj2' : j2 = writeJob id s x.1 x.2 := by
          have := hj2.symm
          simpa [step] using this
        have hst : j2.status = x.1.status.getD (statusOf s) := by
          rw [hj2']; exact step_status id s x
        cases hp : x.1.status with
        | some st =>
          rw [hp] at hst
          simp at hst
          rw [hst] at hterm2
          simp [terminalPatch, hp, hterm2] at hsafe2
        | none =>
          rw [hp] at hst
          simp at hst
          cases hsCase : s with
          | none =>
            rw [hsCase] at hst
            simp [statusOf] at hst
            rw [hst] at hterm2
            simp [Status.isTerminal] at hterm2
          | some j =>
            rw [hsCase] at hst
            simp [statusOf] at hst
            have : x :: xs = [] := by
              apply hinv j hsCase
              rw [← hst]
              exact hterm2
            exact absurd this (List.cons_ne_nil x xs)
  | @right y xs ys zs hint ih =>
    intro hsafe hns s hinv
    obtain ⟨t, ht⟩ := scanl_cons_head (step id) (step id s y) zs
    rw [List.scanl_cons, List.singleton_append, ht]
    have hy : y.1.status = none := hns y (List.mem_cons_self y ys)
    apply List.Chain'.cons
    · intro j hj hterm
      refine ⟨writeJob id s y.1 y.2, rfl, ?_⟩
      rw [step_status, hy, hj]
      rfl
    · rw [← ht]
      apply ih hsafe (fun pt hpt => hns pt (List.mem_cons_of_mem y hpt)) (step id s y)
      intro j2 hj2 hterm2
      have hj2' : j2 = writeJob id s y.1 y.2 := by
        have := hj2.symm
        simpa [step] using this
      have hst : j2.status = Option.getD none (statusOf s) := by
        rw [hj2', ← hy]; exact step_status id s y
      simp at hst
      cases hsCase : s with
      | none =>
        rw [hsCase] at hst
        simp [statusOf] at hst
        rw [hst] at hterm2
        simp [Status.isTerminal] at hterm2
      | some j =>
        rw [hsCase] at hst
        simp [statusOf] at hst
        apply hinv j hsCase
        rw [← hst]
        exact hterm2

theorem safe_pipeline (dataDir id voiceId : String) (o : Oracle) :
    SafeList (creationPatch4 voiceId :: pipelineTrace dataDir id o) := by
  obtain ⟨d, t, vo, sy⟩ := o
  cases d <;> cases t <;> cases vo <;> cases sy <;>
    simp [pipelineTrace, SafeList, terminalPatch, creationPatch4,
      analyzingPatch, ttsStagePatch, donePatch, failPatch, Status.isTerminal]

/-- Claim C1: once the stored record of a job id reaches a terminal
status (`done` or `failed`), no subsequent operation changes its
status: the caption patch, voice change and render handlers apply
patches that name no `status` key (first three conjuncts), and in every
serialization of the job's creation write and `part_004` background
pipeline writes with any number of such status-free writes, every
store state observed at or after a terminal state carries the same
status (last conjunct, over all oracles, interleavings and
timestamps). -/
theorem C1_terminal_status_persists (dataDir id voiceId : String) (o : Oracle) :
    (∀ f lp tp, (capPatch f lp tp).status = none) ∧
    (∀ v f lp tp, (voicePatch v f lp tp).status = none) ∧
    (∀ f op, (renderPatch f op).status = none) ∧
    ∀ pl hs tr : List (Patch × Nat),
      pl.map Prod.fst = creationPatch4 voiceId :: pipelineTrace dataDir id o →
      (∀ pt ∈ hs, (Prod.fst pt).status = none) →
      Interleaving pl hs tr →
      ∀ n m : Nat, n < m →
        ∀ jb : Job, (jobStates id tr).get? n = some (some jb) →
          jb.status.isTerminal = true →
          ∀ ob : Option Job, (jobStates id tr).get? m = some ob →
            ∃ jc, ob = some jc ∧ jc.status = jb.status := by
  refine ⟨fun _ _ _ => rfl, fun _ _ _ _ => rfl, fun _ _ => rfl, ?_⟩
  intro pl hs tr hmap hns hint n m hnm jb hn hterm ob hm
  have hchain : List.Chain' Persist (List.scanl (step id) none tr) := by
    apply chain_persist id hint ?_ hns none ?_
    · rw [hmap]
      exact safe_pipeline dataDir id voiceId o
    · intro j hj _
      cases hj
  haveI : IsTrans (Option Job) Persist :=
    ⟨fun a b c hab hbc => persist_trans hab hbc⟩
  have hpw : List.Pairwise Persist (List.scanl (step id) none tr) :=
    List.chain'_iff_pairwise.mp hchain
  have hn' : (List.scanl (step id) none tr).get? n = some (some jb) := hn
  have hm' : (List.scanl (step id) none tr).get? m = some ob := hm
  obtain ⟨hnlt, hgn⟩ := List.get?_eq_some.mp hn'
  obtain ⟨hmlt, hgm⟩ := List.get?_eq_some.mp hm'
  have hper : Persist ((List.scanl (step id) none tr).get ⟨n, hnlt⟩)
      ((List.scanl (step id) none tr).get ⟨m, hmlt⟩) := by
    have := List.pairwise_iff_getElem.mp hpw n m hnlt hmlt hnm
    simpa [List.get_eq_getElem] using this
  rw [hgn, hgm] at hper
  exact hper jb rfl hterm

/-- Witness for C1 on a concrete failed job with a caption write landing
after the failure. -/
theorem C1_terminal_status_persists_witness :
    j2W.status.isTerminal = true ∧
    ∃ jc, (some j3W : Option Job) = some jc ∧ jc.status = j2W.status :=
  ⟨by decide,
    (C1_terminal_status_persists "d" "i" "v" oW).2.2.2 plW hsW trW (by decide)
      (by decide) (.left (.left (.right .nil))) 2 3 (by omega) j2W rfl
      (by decide) (some j3W) rfl⟩

theorem errString_ne_empty (m : String) : errString m ≠ "" := by
  by_cases h : m = ""
  · subst h; decide
  · simp [errString, h]

/-- Claim C4: if any stage of the `part_004` background pipeline throws —
including the external worker reporting an error payload — the remaining
stages are skipped: the final record has status `failed` with the
non-empty captured error message, no `files` entries from the failing
stage onward are present, and the orchestrator does not retry — the
`failed` write is the pipeline's last write and the only terminal one. -/
theorem C4_stage_failure_aborts (dataDir id voiceId : String) (o : Oracle)
    (ts : Nat → Nat) (m : String) (hfail : firstFail o = some m) :
    ∃ jf,
      applyTrace id none
          (timed (creationPatch4 voiceId :: pipelineTrace dataDir id o) ts 0) =
        some jf ∧
      jf.status = .failed ∧
      jf.error = some (errString m) ∧ errString m ≠ "" ∧
      jf.progress = 100 ∧
      jf.files.ttsPath = none ∧ jf.files.outputPath = none ∧
      (o.download = .fail m → jf.files = {}) ∧
      (o.download = .ok → o.transcript = .fail m →
        jf.files.videoPath = some (mp4Path dataDir id) ∧
        jf.files.linesPath = none ∧ jf.files.editableLinesPath = none) ∧
      (pipelineTrace dataDir id o).getLast? = some (failPatch m) ∧
      ∀ p ∈ (pipelineTrace dataDir id o).dropLast,
        p.status ≠ some Status.failed ∧ p.status ≠ some Status.done := by
  obtain ⟨d, t, vo, sy⟩ := o
  cases d with
  | fail md =>
    simp only [firstFail, Option.some.injEq] at hfail
    subst hfail
    refine ⟨_, rfl, rfl, rfl, errString_ne_empty md, rfl, rfl, rfl,
      fun _ => rfl, fun h _ => absurd h (by simp), rfl, ?_⟩
    intro p hp
    simp [pipelineTrace] at hp
  | ok =>
    cases t with
    | fail mt =>
      simp only [firstFail, Option.some.injEq] at hfail
      subst hfail
      refine ⟨_, rfl, rfl, rfl, errString_ne_empty mt, rfl, rfl, rfl,
        fun h => absurd h (by simp), fun _ _ => ⟨rfl, rfl, rfl⟩, rfl, ?_⟩
      intro p hp
      simp only [pipelineTrace, List.dropLast] at hp
      rw [List.mem_singleton] at hp
      subst hp
      exact ⟨by simp [analyzingPatch], by simp [analyzingPatch]⟩
    | ok =>
      cases vo with
      | fail mv =>
        simp only [firstFail, Option.some.injEq] at hfail
        subst hfail
        refine ⟨_, rfl, rfl, rfl, errString_ne_empty mv, rfl, rfl, rfl,
          fun h => absurd h (by simp), fun _ h => absurd h (by simp), rfl, ?_⟩
        intro p hp
        simp only [pipelineTrace, List.dropLast] at hp
        rcases List.mem_cons.mp hp with h | h
        · subst h
          exact ⟨by simp [analyzingPatch], by simp [analyzingPatch]⟩
        · rw [List.mem_singleton] at h
          subst h
          exact ⟨by simp [ttsStagePatch], by simp [ttsStagePatch]⟩
      | ok =>
        cases sy with
        | fail ms =>
          simp only [firstFail, Option.some.injEq] at hfail
          subst hfail
          refine ⟨_, rfl, rfl, rfl, errString_ne_empty ms, rfl, rfl, rfl,
            fun h => absurd h (by simp), fun _ h => absurd h (by simp), rfl, ?_⟩
          intro p hp
          simp only [pipelineTrace, List.dropLast] at hp
          rcases List.mem_cons.mp hp with h | h
          · subst h
            exact ⟨by simp [analyzingPatch], by simp [analyzingPatch]⟩
          · rw [List.mem_singleton] at h
            subst h
            exact ⟨by simp [ttsStagePatch], by simp [ttsStagePatch]⟩
        | ok =>
          simp [firstFail] at hfail

/-- Witness for C4: the transcript stage throws `'no transcript'`. -/
theorem C4_stage_failure_aborts_witness :
    ∃ jf,
      applyTrace "i" none
          (timed (creationPatch4 "v" ::
            pipelineTrace "/data" "i" ⟨.ok, .fail "no transcript", .ok, .ok⟩)
            (fun k => k) 0) = some jf ∧
      jf.status = .failed ∧ jf.error = some "no transcript" := by
  obtain ⟨jf, h1, h2, h3, _⟩ :=
    C4_stage_failure_aborts "/data" "i" "v" ⟨.ok, .fail "no transcript", .ok, .ok⟩
      (fun k => k) "no transcript" rfl
  refine ⟨jf, h1, h2, ?_⟩
  rw [h3]
  decide

/-- Claim C5 counterexample: a `readJob` interleaved between the truncate
and the write of a concrete `writeJob` observes the empty file and fails
to parse — an outcome that is neither the complete previous record, nor
the complete new record, nor the not-found signal. -/
theorem C5_counterexample :
    (writeFileStates (.full jW) jEx).get? 1 = some .empty ∧
    readJobAt .empty = .parseError ∧
    ReadOutcome.parseError ≠ .record jW ∧
    ReadOutcome.parseError ≠ .record jEx ∧
    ReadOutcome.parseError ≠ .notFound := by
  decide

/-- Claim C5 (amended): the store writes `job.json` with a plain
truncate-then-write (`fs.writeFile`), not an atomic write-then-rename: a
read issued while no write is in progress returns the complete record or
the not-found signal, but a read interleaved between the truncation and
the write observes an empty file and fails to parse — for every record,
an outcome distinct from any complete record and from not-found. -/
theorem C5_read_during_write (prev : JContent) (j : Job) :
    writeFileStates prev j = [prev, .empty, .full j] ∧
    readJobAt .absent = .notFound ∧
    (∀ j0, readJobAt (.full j0) = .record j0) ∧
    readJobAt .empty = .parseError ∧
    (∀ j0, ReadOutcome.parseError ≠ .record j0) ∧
    ReadOutcome.parseError ≠ .notFound :=
  ⟨rfl, rfl, fun _ => rfl, rfl, fun _ => by simp, by simp⟩

/-- Claim C7 counterexample: an attempt whose read yields the non-empty
text `' '` does not resolve — blank text is retried, and with every
attempt reading `' '` the call rejects after the retry budget instead of
resolving at the first attempt. -/
theorem C7_counterexample :
    (fun _ : Nat => some " ") 0 = some " " ∧ (" " : String) ≠ "" ∧
    readJsonWithRetry (fun _ : Nat => some " ")
      (fun s : String => some s) 2 = .error retryMsg := by
  refine ⟨rfl, by decide, ?_⟩
  rfl

theorem rjwrGo_error_msg {α : Type} (readAt : Nat → Option String)
    (parse : String → Option α) :
    ∀ (rem i : Nat) (e : String),
      rjwrGo readAt parse i rem = .error e → e = retryMsg := by
  intro rem
  induction rem with
  | zero =>
    intro i e h
    unfold rjwrGo at h
    cases ha : attemptVal readAt parse i <;> rw [ha] at h <;>
      simp_all
  | succ rem ih =>
    intro i e h
    unfold rjwrGo at h
    cases ha : attemptVal readAt parse i with
    | none =>
      rw [ha] at h
      exact ih (i + 1) e h
    | some v =>
      rw [ha] at h
      cases h

theorem rjwrGo_ok_iff {α : Type} (readAt : Nat → Option String)
    (parse : String → Option α) :
    ∀ (rem i : Nat) (v : α), rjwrGo readAt parse i rem = .ok v ↔
      ∃ k, k ≤ rem ∧ attemptVal readAt parse (i + k) = some v ∧
        ∀ l, l < k → attemptVal readAt parse (i + l) = none := by
  intro rem
  induction rem with
  | zero =>
    intro i v
    unfold rjwrGo
    cases ha : attemptVal readAt parse i with
    | none =>
      simp only [ha]
      constructor
      · intro h; cases h
      · rintro ⟨k, hk, hv, _⟩
        interval_cases k
        rw [Nat.add_zero, ha] at hv
        cases hv
    | some v2 =>
      simp only [ha]
      constructor
      · intro h
        cases h
        exact ⟨0, Nat.le_refl 0, by rw [Nat.add_zero, ha],
          fun l hl => absurd hl (Nat.not_lt_zero l)⟩
      · rintro ⟨k, hk, hv, _⟩
        interval_cases k
        rw [Nat.add_zero, ha] at hv
        cases hv
        rfl
  | succ rem ih =>
    intro i v
    unfold rjwrGo
    cases ha : attemptVal readAt parse i with
    | none =>
      simp only [ha]
      rw [ih (i + 1) v]
      constructor
      · rintro ⟨k, hk, hv, hall⟩
        refine ⟨k + 1, by omega, ?_, ?_⟩
        · have he : i + (k + 1) = i + 1 + k := by omega
          rw [he]; exact hv
        · intro l hl
          cases l with
          | zero => rw [Nat.add_zero]; exact ha
          | succ l =>
            have he : i + (l + 1) = i + 1 + l := by omega
            rw [he]
            exact hall l (by omega)
      · rintro ⟨k, hk, hv, hall⟩
        cases k with
        | zero =>
          rw [Nat.add_zero, ha] at hv
          cases hv
        | succ k =>
          refine ⟨k, by omega, ?_, ?_⟩
          · have he : i + 1 + k = i + (k + 1) := by omega
            rw [he]; exact hv
          · intro l hl
            have he : i + 1 + l = i + (l + 1) := by omega
            rw [he]
            exact hall (l + 1) (by omega)
    | some v2 =>
      simp only [ha]
      constructor
      · intro h
        cases h
        exact ⟨0, Nat.zero_le _, by rw [Nat.add_zero, ha],
          fun l hl => absurd hl (Nat.not_lt_zero l)⟩
      · rintro ⟨k, hk, hv, hall⟩
        cases k with
        | zero =>
          rw [Nat.add_zero, ha] at hv
          cases hv
          rfl
        | succ k =>
          have := hall 0 (by omega)
          rw [Nat.add_zero, ha] at this
          cases this

theorem rjwrGo_error_iff {α : Type} (readAt : Nat → Option String)
    (parse : String → Option α) :
    ∀ (rem i : Nat), rjwrGo readAt parse i rem = .error retryMsg ↔
      ∀ k, k ≤ rem → attemptVal readAt parse (i + k) = none := by
  intro rem
  induction rem with
  | zero =>
    intro i
    unfold rjwrGo
    cases ha : attemptVal readAt parse i with
    | none =>
      simp only [ha]
      constructor
      · intro _ k hk
        interval_cases k
        rw [Nat.add_zero]; exact ha
      · intro _; trivial
    | some v =>
      simp only [ha]
      constructor
      · intro h; cases h
      · intro h
        have := h 0 (Nat.le_refl 0)
        rw [Nat.add_zero, ha] at this
        cases this
  | succ rem ih =>
    intro i
    unfold rjwrGo
    cases ha : attemptVal readAt parse i with
    | none =>
      simp only [ha]
      rw [ih (i + 1)]
      constructor
      · intro h k hk
        cases k with
        | zero => rw [Nat.add_zero]; exact ha
        | succ k =>
          have he : i + (k + 1) = i + 1 + k := by omega
          rw [he]
          exact h k (by omega)
      · intro h k hk
        have he : i + 1 + k = i + (k + 1) := by omega
        rw [he]
        exact h (k + 1) (by omega)
    | some v =>
      simp only [ha]
      constructor
      · intro h; cases h
      · intro h
        have := h 0 (Nat.zero_le _)
        rw [Nat.add_zero, ha] at this
        cases this

theorem rjwrGo_ext {α : Type} (readAt readAt2 : Nat → Option String)
    (parse : String → Option α) :
    ∀ (rem i : Nat), (∀ k, k ≤ rem → readAt (i + k) = readAt2 (i + k)) →
      rjwrGo readAt parse i rem = rjwrGo readAt2 parse i rem := by
  intro rem
  induction rem with
  | zero =>
    intro i h
    have ha : attemptVal readAt parse i = attemptVal readAt2 parse i := by
      unfold attemptVal
      rw [show readAt i = readAt2 i from by
        have := h 0 (Nat.le_refl 0); rwa [Nat.add_zero] at this]
    unfold rjwrGo
    rw [ha]
  | succ rem ih =>
    intro i h
    have ha : attemptVal readAt parse i = attemptVal readAt2 parse i := by
      unfold attemptVal
      rw [show readAt i = readAt2 i from by
        have := h 0 (Nat.zero_le _); rwa [Nat.add_zero] at this]
    unfold rjwrGo
    rw [ha]
    cases attemptVal readAt2 parse i with
    | some v => rfl
    | none =>
      apply ih
      intro k hk
      have he : i + 1 + k = i + (k + 1) := by omega
      rw [he]
      exact h (k + 1) (by omega)

/-- Claim C7 (amended): `readJsonWithRetry` always terminates with a
value or the fixed rejection; it makes at most `max tries 1` read
attempts (the `++i >= tries` guard runs one attempt even for
`tries = 0`; at every call site `tries ≥ 1`, giving at most `tries`),
resolving with the parsed JSON at the first attempt whose text is
non-blank after trimming and parses, and otherwise — the retry budget
exhausted exactly at the last attempt — rejecting with the
deterministic error `'result.json missing or empty after retries'`
rather than hanging. -/
theorem C7_retry_bounded_deterministic {α : Type}
    (readAt : Nat → Option String) (parse : String → Option α)
    (tries : Nat) :
    (∀ e, readJsonWithRetry readAt parse tries = .error e → e = retryMsg) ∧
    ((∃ v, readJsonWithRetry readAt parse tries = .ok v) ∨
      readJsonWithRetry readAt parse tries = .error retryMsg) ∧
    (∀ v, readJsonWithRetry readAt parse tries = .ok v ↔
      ∃ k, k < max tries 1 ∧ attemptVal readAt parse k = some v ∧
        ∀ l, l < k → attemptVal readAt parse l = none) ∧
    (readJsonWithRetry readAt parse tries = .error retryMsg ↔
      ∀ k, k < max tries 1 → attemptVal readAt parse k = none) ∧
    (∀ readAt2 : Nat → Option String,
      (∀ k, k < max tries 1 → readAt k = readAt2 k) →
      readJsonWithRetry readAt parse tries =
        readJsonWithRetry readAt2 parse tries) := by
  have hb : ∀ k : Nat, k ≤ tries - 1 ↔ k < max tries 1 := by
    intro k; omega
  refine ⟨?_, ?_, ?_, ?_, ?_⟩
  · intro e h
    exact rjwrGo_error_msg readAt parse (tries - 1) 0 e h
  · cases h : readJsonWithRetry readAt parse tries with
    | ok v => exact Or.inl ⟨v, rfl⟩
    | error e =>
      right
      rw [rjwrGo_error_msg readAt parse (tries - 1) 0 e h]
  · intro v
    unfold readJsonWithRetry
    rw [rjwrGo_ok_iff readAt parse (tries - 1) 0 v]
    constructor
    · rintro ⟨k, hk, hv, hall⟩
      refine ⟨k, (hb k).mp hk, ?_, ?_⟩
      · rwa [Nat.zero_add] at hv
      · intro l hl
        have := hall l hl
        rwa [Nat.zero_add] at this
    · rintro ⟨k, hk, hv, hall⟩
      refine ⟨k, (hb k).mpr hk, ?_, ?_⟩
      · rwa [Nat.zero_add]
      · intro l hl
        rw [Nat.zero_add]
        exact hall l hl
  · unfold readJsonWithRetry
    rw [rjwrGo_error_iff readAt parse (tries - 1) 0]
    constructor
    · intro h k hk
      have := h k ((hb k).mpr hk)
      rwa [Nat.zero_add] at this
    · intro h k hk
      rw [Nat.zero_add]
      exact h k ((hb k).mp hk)
  · intro readAt2 h
    unfold readJsonWithRetry
    apply rjwrGo_ext
    intro k hk
    rw [Nat.zero_add]
    exact h k ((hb k).mp hk)

/-- Witness for the amended C7: the file materializes with parseable text
at the second attempt, and the call resolves with it. -/
theorem C7_retry_bounded_deterministic_witness :
    readJsonWithRetry (fun i : Nat => if i = 1 then some "x" else none)
      (fun s : String => some s) 3 = .ok "x" :=
  ((C7_retry_bounded_deterministic
      (fun i : Nat => if i = 1 then some "x" else none)
      (fun s : String => some s) 3).2.2.1 "x").mpr
    ⟨1, by omega, by decide, by decide⟩

/-- Witness for the amended C5 at a concrete record pair. -/
theorem C5_read_during_write_witness :
    readJobAt (.full jW) = .record jW ∧
    ReadOutcome.parseError ≠ .record jW :=
  ⟨(C5_read_during_write (.full jW) jEx).2.2.1 jW,
    (C5_read_during_write (.full jW) jEx).2.2.2.2.1 jW⟩

end SimpleApi
